import Mathlib

/-!
Verification of the quickcrop `ImageCropper` engine (`cropper.js`).

The class state (`this.image`, `this.imageLoaded`, `this.scale`,
`this.offsetX/Y`, `this.containerRect`, `this.frameRect`, `this.dragStart`)
is embedded as the structure `CropperState`; the configuration object
(`this.options`) as `Options`.  JavaScript numbers are modelled as exact
rationals (`ℚ`); every method of the class that the claims touch is
translated to a pure state-passing function below.  DOM side effects
(style updates, event-listener wiring, canvas painting) are outside the
model; environment failures of the canvas pipeline are abstracted by
`CanvasEnv`.
-/

namespace QuickCrop

/-- Configuration options (`this.options`, constructor lines 26–32). -/
structure Options where
  aspectRatio : ℚ
  minZoom : ℚ
  maxZoom : ℚ
  zoomStep : ℚ
deriving DecidableEq

/-- A frame rectangle as stored in `this.frameRect` (lines 176–183). -/
structure Rect where
  left : ℚ
  top : ℚ
  width : ℚ
  height : ℚ
  right : ℚ
  bottom : ℚ
deriving DecidableEq

/-- The cached container bounding rectangle (`this.containerRect`): only its
`left` and `top` fields are read by the engine. -/
structure ContainerRect where
  left : ℚ
  top : ℚ
deriving DecidableEq

/-- Natural dimensions of the loaded image element. -/
structure ImageDims where
  naturalWidth : ℚ
  naturalHeight : ℚ
deriving DecidableEq

/-- The drag session stored in `this.dragStart` (lines 400–405): pointer
position at gesture start and the offsets at that moment. -/
structure DragInfo where
  x : ℚ
  y : ℚ
  offsetX : ℚ
  offsetY : ℚ
deriving DecidableEq

/-- The mutable engine state of one `ImageCropper` instance
(constructor lines 34–44). -/
@[ext]
structure CropperState where
  image : Option ImageDims
  imageLoaded : Bool
  scale : ℚ
  offsetX : ℚ
  offsetY : ℚ
  containerRect : Option ContainerRect
  frameRect : Option Rect
  dragStart : Option DragInfo
deriving DecidableEq

/-- `updateCropFrame` (lines 109–189), reduced to its geometric content: from
the container's client width/height and the configured aspect ratio compute
the crop-frame rectangle, or `none` when the container has non-positive
dimensions (the code then invalidates `this.frameRect`).  The code reserves a
10% margin (`* 0.9`), picks the binding axis by comparing
`availableWidth / availableHeight` with the aspect ratio, clamps the sizes to
be non-negative with `Math.max(0, ·)` and centers the frame. -/
def updateCropFrame (opts : Options) (containerWidth containerHeight : ℚ) :
    Option Rect :=
  if containerWidth ≤ 0 ∨ containerHeight ≤ 0 then none
  else
    let availableWidth := containerWidth * (9 / 10)
    let availableHeight := containerHeight * (9 / 10)
    let wh : ℚ × ℚ :=
      if availableWidth / availableHeight > opts.aspectRatio then
        (availableHeight * opts.aspectRatio, availableHeight)
      else
        (availableWidth, availableWidth / opts.aspectRatio)
    let frameWidth := max 0 wh.1
    let frameHeight := max 0 wh.2
    let left := (containerWidth - frameWidth) / 2
    let top := (containerHeight - frameHeight) / 2
    some { left := left, top := top, width := frameWidth, height := frameHeight,
           right := left + frameWidth, bottom := top + frameHeight }

/-- `resetView` (lines 268–348): fit the image into the crop frame.  Guard:
image loaded, an image element and a frame rect present (lines 269–272).  On
degenerate dimensions it degrades to `scale = 1, offset = (0,0)`
(lines 283–290); otherwise it picks the fit scale by comparing aspect ratios
(lines 293–304), applies it unclamped (line 326) and centers the scaled image
on the frame center (lines 333–342).  The method reads `this.options` only in
commented-out code, so the `opts` argument is unused. -/
def resetView (_opts : Options) (st : CropperState) : CropperState :=
  match st.image, st.frameRect, st.imageLoaded with
  | some img, some fr, true =>
    if img.naturalWidth ≤ 0 ∨ img.naturalHeight ≤ 0 ∨ fr.width ≤ 0 ∨ fr.height ≤ 0 then
      { st with scale := 1, offsetX := 0, offsetY := 0 }
    else
      let imageAspect := img.naturalWidth / img.naturalHeight
      let frameAspect := fr.width / fr.height
      let s := if imageAspect > frameAspect then fr.height / img.naturalHeight
               else fr.width / img.naturalWidth
      let scaledWidth := img.naturalWidth * s
      let scaledHeight := img.naturalHeight * s
      let frameCenterX := fr.left + fr.width / 2
      let frameCenterY := fr.top + fr.height / 2
      { st with scale := s,
                offsetX := frameCenterX - scaledWidth / 2,
                offsetY := frameCenterY - scaledHeight / 2 }
  | _, _, _ => st

/-- `zoomAtPoint` (lines 503–533): guard on `imageLoaded` and a cached
`containerRect` (line 504); convert the client point to container
coordinates, compute the image-space anchor, clamp the new scale into
`[minZoom, maxZoom]` (lines 514–518), return unchanged when the clamped
scale equals the current one (line 521), else recompute the offsets so the
anchor stays under the screen point (lines 528–530). -/
def zoomAtPoint (opts : Options) (st : CropperState)
    (factor clientX clientY : ℚ) : CropperState :=
  match st.containerRect, st.imageLoaded with
  | some cr, true =>
    let pointX := clientX - cr.left
    let pointY := clientY - cr.top
    let imageX := (pointX - st.offsetX) / st.scale
    let imageY := (pointY - st.offsetY) / st.scale
    let newScale := max opts.minZoom (min opts.maxZoom (st.scale * factor))
    if newScale = st.scale then st
    else { st with offsetX := pointX - imageX * newScale,
                   offsetY := pointY - imageY * newScale,
                   scale := newScale }
  | _, _ => st

/-- `zoomIn` (lines 538–543): `zoomAtPoint` with factor `1 + zoomStep` at the
client coordinates of the frame center.  The code guards on `imageLoaded` and
`frameRect` and reads `containerRect.left/top` unconditionally, so the model
requires the cached container rect as well. -/
def zoomIn (opts : Options) (st : CropperState) : CropperState :=
  match st.frameRect, st.containerRect, st.imageLoaded with
  | some fr, some cr, true =>
    let centerX := cr.left + fr.left + fr.width / 2
    let centerY := cr.top + fr.top + fr.height / 2
    zoomAtPoint opts st (1 + opts.zoomStep) centerX centerY
  | _, _, _ => st

/-- `zoomOut` (lines 548–553): `zoomAtPoint` with the inverse factor
`1 / (1 + zoomStep)` at the client coordinates of the frame center. -/
def zoomOut (opts : Options) (st : CropperState) : CropperState :=
  match st.frameRect, st.containerRect, st.imageLoaded with
  | some fr, some cr, true =>
    let centerX := cr.left + fr.left + fr.width / 2
    let centerY := cr.top + fr.top + fr.height / 2
    zoomAtPoint opts st (1 / (1 + opts.zoomStep)) centerX centerY
  | _, _, _ => st

/-- A mouse event as read by `handleMouseDown`: client coordinates and the
button index. -/
structure MouseEvent where
  clientX : ℚ
  clientY : ℚ
  button : ℕ
deriving DecidableEq

/-- A touch point as read by `handleTouchStart`. -/
structure Touch where
  clientX : ℚ
  clientY : ℚ
deriving DecidableEq

/-- `handleMouseDown` (lines 396–410): with an image loaded and the main
button, store a fresh drag session from the event position and the current
offsets.  The code never tests `this.dragStart`, so an active session is
simply overwritten. -/
def handleMouseDown (st : CropperState) (e : MouseEvent) : CropperState :=
  if ¬st.imageLoaded ∨ e.button ≠ 0 then st
  else { st with dragStart := some ⟨e.clientX, e.clientY, st.offsetX, st.offsetY⟩ }

/-- `handleTouchStart` (lines 449–466): with an image loaded and exactly one
touch, store a fresh drag session from the touch position and the current
offsets.  As with the mouse handler, an active session is overwritten, not
ignored. -/
def handleTouchStart (st : CropperState) (touches : List Touch) : CropperState :=
  if ¬st.imageLoaded then st
  else
    match touches with
    | [t] => { st with dragStart := some ⟨t.clientX, t.clientY, st.offsetX, st.offsetY⟩ }
    | _ => st

/-- `clear` (lines 663–687): reset the state variables; `containerRect` and
`frameRect` are deliberately kept (comment lines 679–680). -/
def clear (st : CropperState) : CropperState :=
  { st with image := none, imageLoaded := false, scale := 1,
            offsetX := 0, offsetY := 0, dragStart := none }

/-- A file as seen by `loadImage`: its MIME type as a character list. -/
structure JSFile where
  mimeType : List Char
deriving DecidableEq

/-- The characters of the string literal `'image/'` tested by
`file.type.startsWith('image/')` on line 201. -/
def imageMimeHead : List Char := ['i', 'm', 'a', 'g', 'e', '/']

/-- Outcome of the synchronous prefix of `loadImage`. -/
inductive LoadOutcome where
  | rejectedInvalidFile
  | readingStarted
deriving DecidableEq

/-- The synchronous prefix of `loadImage` (lines 197–263): `this.clear()`
runs first (line 199), then the payload is validated (lines 201–203) — a
missing file or a MIME type not starting with `image/` rejects the promise.
A valid payload starts the asynchronous `FileReader` path, which is outside
this model. -/
def loadImage (st : CropperState) (file : Option JSFile) :
    LoadOutcome × CropperState :=
  let cleared := clear st
  match file with
  | none => (LoadOutcome.rejectedInvalidFile, cleared)
  | some f =>
    if imageMimeHead.isPrefixOf f.mimeType then (LoadOutcome.readingStarted, cleared)
    else (LoadOutcome.rejectedInvalidFile, cleared)

/-- `Math.round` on an exact rational: round half toward positive infinity. -/
def jsRound (q : ℚ) : ℤ := ⌊q + 1 / 2⌋

/-- Abstraction of the canvas environment inside `getCroppedImage`: whether
`getContext('2d')` returns a context, whether `drawImage` throws and whether
`toDataURL` throws. -/
structure CanvasEnv where
  ctxOk : Bool
  drawOk : Bool
  encodeOk : Bool
deriving DecidableEq

/-- The numeric content of a successful `getCroppedImage` call: the canvas
(destination buffer) dimensions and the source rectangle handed to
`drawImage`. -/
structure CropResult where
  canvasWidth : ℤ
  canvasHeight : ℤ
  sourceX : ℚ
  sourceY : ℚ
  sourceWidth : ℚ
  sourceHeight : ℚ
deriving DecidableEq

/-- `getCroppedImage` (lines 576–648): guard on image loaded and frame
defined (lines 577–580); canvas sized to `round(outputWidth)` by
`round(outputWidth / aspectRatio)` (lines 583–588); source rectangle obtained
by subtracting the offsets from the frame position and dividing by the scale
(lines 600–616); the three environment failure branches return `null`.  The
method assigns none of the instance fields, which the returned state makes
explicit. -/
def getCroppedImage (opts : Options) (env : CanvasEnv) (st : CropperState)
    (outputWidth : ℚ) : Option CropResult × CropperState :=
  match st.image, st.frameRect, st.imageLoaded with
  | some _, some fr, true =>
    let outputHeight := outputWidth / opts.aspectRatio
    let canvasWidth := jsRound outputWidth
    let canvasHeight := jsRound outputHeight
    if env.ctxOk = false then (none, st)
    else
      let sourceX := (fr.left - st.offsetX) / st.scale
      let sourceY := (fr.top - st.offsetY) / st.scale
      let sourceWidth := fr.width / st.scale
      let sourceHeight := fr.height / st.scale
      if env.drawOk = false then (none, st)
      else if env.encodeOk = false then (none, st)
      else (some { canvasWidth := canvasWidth, canvasHeight := canvasHeight,
                   sourceX := sourceX, sourceY := sourceY,
                   sourceWidth := sourceWidth, sourceHeight := sourceHeight }, st)
  | _, _, _ => (none, st)

/-- C2: for all positive viewport dimensions and aspect ratio the computed
frame has exactly the configured aspect ratio, occupies at most 90% of each
viewport dimension, is centered (`left = w - right`, `top = h - bottom`), and
the binding axis is chosen by comparing `availableWidth / availableHeight`
with the aspect ratio exactly as the claim states. -/
theorem updateCropFrame_spec (opts : Options) (w h : ℚ)
    (hw : 0 < w) (hh : 0 < h) (har : 0 < opts.aspectRatio) :
    ∃ fr : Rect, updateCropFrame opts w h = some fr
      ∧ fr.width / fr.height = opts.aspectRatio
      ∧ fr.width ≤ 9 / 10 * w
      ∧ fr.height ≤ 9 / 10 * h
      ∧ fr.left = w - fr.right
      ∧ fr.top = h - fr.bottom
      ∧ (if w * (9 / 10) / (h * (9 / 10)) > opts.aspectRatio
          then fr.height = h * (9 / 10) ∧ fr.width = fr.height * opts.aspectRatio
          else fr.width = w * (9 / 10) ∧ fr.height = fr.width / opts.aspectRatio) := by
  have hw9 : (0 : ℚ) < w * (9 / 10) := by linarith
  have hh9 : (0 : ℚ) < h * (9 / 10) := by linarith
  have hne : ¬(w ≤ 0 ∨ h ≤ 0) := by push_neg; constructor <;> linarith
  by_cases hcond : w * (9 / 10) / (h * (9 / 10)) > opts.aspectRatio
  · -- available area relatively wider: bind on height
    have hres : updateCropFrame opts w h = some
        { left := (w - h * (9 / 10) * opts.aspectRatio) / 2,
          top := (h - h * (9 / 10)) / 2,
          width := h * (9 / 10) * opts.aspectRatio,
          height := h * (9 / 10),
          right := (w - h * (9 / 10) * opts.aspectRatio) / 2
                     + h * (9 / 10) * opts.aspectRatio,
          bottom := (h - h * (9 / 10)) / 2 + h * (9 / 10) } := by
      unfold updateCropFrame
      rw [if_neg hne]
      simp only [if_pos hcond]
      rw [max_eq_right (by positivity : (0 : ℚ) ≤ h * (9 / 10) * opts.aspectRatio),
        max_eq_right hh9.le]
    have hfit := (lt_div_iff₀ hh9).mp hcond
    refine ⟨_, hres, ?_, ?_, ?_, ?_, ?_, ?_⟩
    · show h * (9 / 10) * opts.aspectRatio / (h * (9 / 10)) = opts.aspectRatio
      field_simp
    · show h * (9 / 10) * opts.aspectRatio ≤ 9 / 10 * w
      nlinarith
    · show h * (9 / 10) ≤ 9 / 10 * h
      linarith
    · show (w - h * (9 / 10) * opts.aspectRatio) / 2 = w - _
      ring
    · show (h - h * (9 / 10)) / 2 = h - _
      ring
    · rw [if_pos hcond]
      exact ⟨rfl, rfl⟩
  · -- otherwise: bind on width
    push_neg at hcond
    have hres : updateCropFrame opts w h = some
        { left := (w - w * (9 / 10)) / 2,
          top := (h - w * (9 / 10) / opts.aspectRatio) / 2,
          width := w * (9 / 10),
          height := w * (9 / 10) / opts.aspectRatio,
          right := (w - w * (9 / 10)) / 2 + w * (9 / 10),
          bottom := (h - w * (9 / 10) / opts.aspectRatio) / 2
                      + w * (9 / 10) / opts.aspectRatio } := by
      unfold updateCropFrame
      rw [if_neg hne]
      simp only [if_neg (not_lt.mpr hcond)]
      rw [max_eq_right (by positivity : (0 : ℚ) ≤ w * (9 / 10) / opts.aspectRatio),
        max_eq_right hw9.le]
    have hfit := (div_le_iff₀ hh9).mp hcond
    refine ⟨_, hres, ?_, ?_, ?_, ?_, ?_, ?_⟩
    · show w * (9 / 10) / (w * (9 / 10) / opts.aspectRatio) = opts.aspectRatio
      rw [div_div_eq_mul_div, mul_comm (w * (9 / 10)) opts.aspectRatio,
        mul_div_assoc, div_self (ne_of_gt hw9), mul_one]
    · show w * (9 / 10) ≤ 9 / 10 * w
      linarith
    · show w * (9 / 10) / opts.aspectRatio ≤ 9 / 10 * h
      rw [div_le_iff₀ har]
      nlinarith
    · show (w - w * (9 / 10)) / 2 = w - _
      ring
    · show (h - w * (9 / 10) / opts.aspectRatio) / 2 = h - _
      ring
    · rw [if_neg (not_lt.mpr hcond)]
      exact ⟨rfl, rfl⟩

/-- The letter-size configuration from the repository's README and the
spec's worked scenario: aspect ratio `8.5 / 11 = 17/22`, default zoom
bounds and step. -/
def optsLetter : Options := ⟨17 / 22, 1 / 10, 5, 1 / 10⟩

/-- The frame computed for a 1000×800 container at aspect ratio `17/22`
(the spec's scenario: available 900×720, height-bound, width `6120/11`). -/
def frDemo : Rect :=
  ⟨2440 / 11, 40, 6120 / 11, 720, 2440 / 11 + 6120 / 11, 760⟩

/-- A container rect cached at the viewport origin. -/
def crDemo : ContainerRect := ⟨0, 0⟩

/-- The engine state right after loading a 2000×1000 image into the
1000×800 container and fit-resetting: scale `720/1000 = 18/25`, the scaled
image centered on the frame center `(500, 400)`. -/
def stDemo : CropperState :=
  { image := some ⟨2000, 1000⟩, imageLoaded := true, scale := 18 / 25,
    offsetX := -220, offsetY := 40, containerRect := some crDemo,
    frameRect := some frDemo, dragStart := none }

/-- Witness for `updateCropFrame_spec` at the spec's scenario: viewport
1000×800, aspect ratio `17/22`. -/
theorem updateCropFrame_spec_witness :
    ((0 : ℚ) < 1000 ∧ (0 : ℚ) < 800 ∧ 0 < optsLetter.aspectRatio) ∧
    ∃ fr : Rect, updateCropFrame optsLetter 1000 800 = some fr
      ∧ fr.width / fr.height = optsLetter.aspectRatio
      ∧ fr.width ≤ 9 / 10 * 1000
      ∧ fr.height ≤ 9 / 10 * 800
      ∧ fr.left = 1000 - fr.right
      ∧ fr.top = 800 - fr.bottom
      ∧ (if 1000 * (9 / 10) / (800 * (9 / 10)) > optsLetter.aspectRatio
          then fr.height = 800 * (9 / 10) ∧ fr.width = fr.height * optsLetter.aspectRatio
          else fr.width = 1000 * (9 / 10) ∧ fr.height = fr.width / optsLetter.aspectRatio) :=
  ⟨⟨by norm_num, by norm_num, by norm_num [optsLetter]⟩,
    updateCropFrame_spec optsLetter 1000 800 (by norm_num) (by norm_num)
      (by norm_num [optsLetter])⟩

/-- Helper: the zoom clamp is the identity on values inside the bounds. -/
theorem clamp_eq_self (opts : Options) (x : ℚ)
    (hlo : opts.minZoom ≤ x) (hhi : x ≤ opts.maxZoom) :
    max opts.minZoom (min opts.maxZoom x) = x := by
  rw [min_eq_right hhi, max_eq_right hlo]

/-- Helper: the explicit result of `zoomAtPoint` when the guard passes and
the clamped scale differs from the current one. -/
theorem zoomAtPoint_proceed (opts : Options) (st : CropperState)
    (cr : ContainerRect) (factor clientX clientY : ℚ)
    (hload : st.imageLoaded = true) (hcr : st.containerRect = some cr)
    (hchange : max opts.minZoom (min opts.maxZoom (st.scale * factor)) ≠ st.scale) :
    zoomAtPoint opts st factor clientX clientY =
      { st with
        offsetX := (clientX - cr.left) - (clientX - cr.left - st.offsetX) / st.scale
                     * max opts.minZoom (min opts.maxZoom (st.scale * factor)),
        offsetY := (clientY - cr.top) - (clientY - cr.top - st.offsetY) / st.scale
                     * max opts.minZoom (min opts.maxZoom (st.scale * factor)),
        scale := max opts.minZoom (min opts.maxZoom (st.scale * factor)) } := by
  cases st with
  | mk image imageLoaded scale offsetX offsetY containerRect frameRect dragStart =>
    simp only at hload hcr hchange ⊢
    subst hload
    subst hcr
    simp only [zoomAtPoint]
    rw [if_neg hchange]

/-- Helper: `zoomAtPoint` is the identity when the clamped scale equals the
current scale (and also whenever the guard fails). -/
theorem zoomAtPoint_noop (opts : Options) (st : CropperState)
    (factor clientX clientY : ℚ)
    (hsame : max opts.minZoom (min opts.maxZoom (st.scale * factor)) = st.scale) :
    zoomAtPoint opts st factor clientX clientY = st := by
  cases st with
  | mk image imageLoaded scale offsetX offsetY containerRect frameRect dragStart =>
    simp only at hsame ⊢
    cases containerRect with
    | none => cases imageLoaded <;> simp [zoomAtPoint]
    | some cr =>
      cases imageLoaded
      · simp [zoomAtPoint]
      · simp only [zoomAtPoint]
        rw [if_pos hsame]

/-- C1: when an image is loaded, a container rect is cached and the clamped
scale differs from the current one, `zoomAtPoint` keeps the source-image
point that was under the given client point exactly under it: on each axis
`offset' + scale' * imagePoint = point`, with
`imagePoint = (point - oldOffset) / oldScale` and `point` the client
coordinate relative to the container's top-left corner. -/
theorem zoomAtPoint_anchor_invariant (opts : Options) (st : CropperState)
    (cr : ContainerRect) (factor clientX clientY : ℚ)
    (hload : st.imageLoaded = true) (hcr : st.containerRect = some cr)
    (hchange : max opts.minZoom (min opts.maxZoom (st.scale * factor)) ≠ st.scale) :
    (zoomAtPoint opts st factor clientX clientY).offsetX
        + (zoomAtPoint opts st factor clientX clientY).scale
          * ((clientX - cr.left - st.offsetX) / st.scale) = clientX - cr.left
    ∧ (zoomAtPoint opts st factor clientX clientY).offsetY
        + (zoomAtPoint opts st factor clientX clientY).scale
          * ((clientY - cr.top - st.offsetY) / st.scale) = clientY - cr.top := by
  rw [zoomAtPoint_proceed opts st cr factor clientX clientY hload hcr hchange]
  constructor <;> (simp only; ring)

/-- Witness for `zoomAtPoint_anchor_invariant`: the fit-reset demo state,
factor 2 at client point (300, 300). -/
theorem zoomAtPoint_anchor_invariant_witness :
    (stDemo.imageLoaded = true ∧ stDemo.containerRect = some crDemo ∧
      max optsLetter.minZoom (min optsLetter.maxZoom (stDemo.scale * 2)) ≠ stDemo.scale) ∧
    ((zoomAtPoint optsLetter stDemo 2 300 300).offsetX
        + (zoomAtPoint optsLetter stDemo 2 300 300).scale
          * ((300 - crDemo.left - stDemo.offsetX) / stDemo.scale) = 300 - crDemo.left
      ∧ (zoomAtPoint optsLetter stDemo 2 300 300).offsetY
        + (zoomAtPoint optsLetter stDemo 2 300 300).scale
          * ((300 - crDemo.top - stDemo.offsetY) / stDemo.scale) = 300 - crDemo.top) :=
  ⟨⟨rfl, rfl, by norm_num [optsLetter, stDemo, max_def, min_def]⟩,
    zoomAtPoint_anchor_invariant optsLetter stDemo crDemo 2 300 300 rfl rfl
      (by norm_num [optsLetter, stDemo, max_def, min_def])⟩

/-- The loaded 2000×1000 demo image (the spec's fit scenario). -/
def imgDemo : ImageDims := ⟨2000, 1000⟩

/-- The engine state right after loading `imgDemo` into the 1000×800
container, before `resetView` runs: default scale 1 and offsets 0. -/
def stPreReset : CropperState :=
  { image := some imgDemo, imageLoaded := true, scale := 1,
    offsetX := 0, offsetY := 0, containerRect := some crDemo,
    frameRect := some frDemo, dragStart := none }

/-- A letter-ratio configuration whose `minZoom` is 1, above the fit scale
`18/25` of the demo scenario: used to exhibit that `resetView` ignores the
zoom bounds. -/
def optsMinOne : Options := ⟨17 / 22, 1, 5, 1 / 10⟩

/-- Helper: the explicit result of `resetView` when the guard passes and the
dimensions are positive. -/
theorem resetView_proceed (opts : Options) (st : CropperState)
    (img : ImageDims) (fr : Rect)
    (himg : st.image = some img) (hfr : st.frameRect = some fr)
    (hload : st.imageLoaded = true)
    (hpos : ¬(img.naturalWidth ≤ 0 ∨ img.naturalHeight ≤ 0
              ∨ fr.width ≤ 0 ∨ fr.height ≤ 0)) :
    resetView opts st =
      { st with
        scale := if img.naturalWidth / img.naturalHeight > fr.width / fr.height
                 then fr.height / img.naturalHeight else fr.width / img.naturalWidth,
        offsetX := fr.left + fr.width / 2 - img.naturalWidth *
            (if img.naturalWidth / img.naturalHeight > fr.width / fr.height
             then fr.height / img.naturalHeight else fr.width / img.naturalWidth) / 2,
        offsetY := fr.top + fr.height / 2 - img.naturalHeight *
            (if img.naturalWidth / img.naturalHeight > fr.width / fr.height
             then fr.height / img.naturalHeight else fr.width / img.naturalWidth) / 2 } := by
  cases st with
  | mk image imageLoaded scale offsetX offsetY containerRect frameRect dragStart =>
    simp only at himg hfr hload ⊢
    subst himg
    subst hfr
    subst hload
    simp only [resetView]
    rw [if_neg hpos]

/-- C3: for every loaded image and frame with positive dimensions,
`resetView` binds on height (`scale = frame.height / imageHeight`) exactly
when the image aspect ratio exceeds the frame aspect ratio and on width
otherwise, centers the scaled image's bounding box on the frame center on
both axes, and never consults the configured zoom bounds: the result is the
same for every `Options` value, so the fit scale stands even outside
`[minZoom, maxZoom]`. -/
theorem resetView_fit_spec (opts : Options) (st : CropperState)
    (img : ImageDims) (fr : Rect)
    (himg : st.image = some img) (hfr : st.frameRect = some fr)
    (hload : st.imageLoaded = true)
    (hw : 0 < img.naturalWidth) (hh : 0 < img.naturalHeight)
    (hfw : 0 < fr.width) (hfh : 0 < fr.height) :
    ((resetView opts st).scale =
        if img.naturalWidth / img.naturalHeight > fr.width / fr.height
        then fr.height / img.naturalHeight else fr.width / img.naturalWidth)
    ∧ (resetView opts st).offsetX
        + img.naturalWidth * (resetView opts st).scale / 2
      = fr.left + fr.width / 2
    ∧ (resetView opts st).offsetY
        + img.naturalHeight * (resetView opts st).scale / 2
      = fr.top + fr.height / 2
    ∧ ∀ opts' : Options, resetView opts' st = resetView opts st := by
  have hpos : ¬(img.naturalWidth ≤ 0 ∨ img.naturalHeight ≤ 0
                ∨ fr.width ≤ 0 ∨ fr.height ≤ 0) := by
    push_neg
    exact ⟨hw, hh, hfw, hfh⟩
  rw [resetView_proceed opts st img fr himg hfr hload hpos]
  refine ⟨rfl, ?_, ?_, ?_⟩
  · simp only
    ring
  · simp only
    ring
  · intro opts'
    rw [resetView_proceed opts' st img fr himg hfr hload hpos]

/-- Witness for `resetView_fit_spec`: the 2000×1000 image in the 1000×800
container's frame under a configuration with `minZoom = 1`; the fit scale
`18/25` lies below `minZoom` and is applied anyway, and the result is
identical under the default configuration. -/
theorem resetView_fit_spec_witness :
    (stPreReset.image = some imgDemo ∧ stPreReset.frameRect = some frDemo
      ∧ stPreReset.imageLoaded = true
      ∧ (0 : ℚ) < imgDemo.naturalWidth ∧ (0 : ℚ) < imgDemo.naturalHeight
      ∧ (0 : ℚ) < frDemo.width ∧ (0 : ℚ) < frDemo.height) ∧
    ((resetView optsMinOne stPreReset).scale = 18 / 25
      ∧ (resetView optsMinOne stPreReset).scale < optsMinOne.minZoom
      ∧ (resetView optsMinOne stPreReset).offsetX
          + imgDemo.naturalWidth * (resetView optsMinOne stPreReset).scale / 2
        = frDemo.left + frDemo.width / 2
      ∧ (resetView optsMinOne stPreReset).offsetY
          + imgDemo.naturalHeight * (resetView optsMinOne stPreReset).scale / 2
        = frDemo.top + frDemo.height / 2
      ∧ resetView optsLetter stPreReset = resetView optsMinOne stPreReset) := by
  have h := resetView_fit_spec optsMinOne stPreReset imgDemo frDemo rfl rfl rfl
    (by norm_num [imgDemo]) (by norm_num [imgDemo])
    (by norm_num [frDemo]) (by norm_num [frDemo])
  have hscale : (resetView optsMinOne stPreReset).scale = 18 / 25 := by
    rw [h.1]
    norm_num [imgDemo, frDemo]
  refine ⟨⟨rfl, rfl, rfl, by norm_num [imgDemo], by norm_num [imgDemo],
    by norm_num [frDemo], by norm_num [frDemo]⟩,
    hscale, ?_, h.2.1, h.2.2.1, h.2.2.2 optsLetter⟩
  rw [hscale]
  norm_num [optsMinOne]

/-- Helper: `jsRound` is the identity on integers. -/
theorem jsRound_intCast (n : ℤ) : jsRound (n : ℚ) = n := by
  unfold jsRound
  rw [add_comm, Int.floor_add_int]
  norm_num

/-- C4: with an image loaded and a frame defined (and a canvas environment
that does not fail), `getCroppedImage` maps the frame to source pixel space
by `sourceX = (frame.left - offsetX) / scale` (resp. `top`/`offsetY`),
`sourceWidth = frame.width / scale`, `sourceHeight = frame.height / scale`,
and the destination buffer is exactly `round(outputWidth)` by
`round(outputWidth / aspectRatio)` pixels; for an integral `outputWidth` the
buffer width is exactly `outputWidth`. -/
theorem getCroppedImage_spec (opts : Options) (st : CropperState)
    (img : ImageDims) (fr : Rect) (outputWidth : ℚ)
    (himg : st.image = some img) (hfr : st.frameRect = some fr)
    (hload : st.imageLoaded = true) :
    getCroppedImage opts ⟨true, true, true⟩ st outputWidth =
      (some { canvasWidth := jsRound outputWidth,
              canvasHeight := jsRound (outputWidth / opts.aspectRatio),
              sourceX := (fr.left - st.offsetX) / st.scale,
              sourceY := (fr.top - st.offsetY) / st.scale,
              sourceWidth := fr.width / st.scale,
              sourceHeight := fr.height / st.scale }, st)
    ∧ ∀ n : ℤ, outputWidth = (n : ℚ) → jsRound outputWidth = n := by
  constructor
  · cases st with
    | mk image imageLoaded scale offsetX offsetY containerRect frameRect dragStart =>
      simp only at himg hfr hload ⊢
      subst himg
      subst hfr
      subst hload
      simp [getCroppedImage]
  · intro n hn
    rw [hn]
    exact jsRound_intCast n

/-- Witness for `getCroppedImage_spec`: extraction right after load and
fit-reset in the demo scenario, with `outputWidth = 850` and the configured
ratio `17/22` (the frame's own aspect ratio): the buffer is exactly
850 × 1100, since `850 / (17/22) = 1100`. -/
theorem getCroppedImage_spec_witness :
    (stDemo.image = some imgDemo ∧ stDemo.frameRect = some frDemo
      ∧ stDemo.imageLoaded = true) ∧
    (getCroppedImage optsLetter ⟨true, true, true⟩ stDemo 850 =
      (some { canvasWidth := jsRound 850,
              canvasHeight := jsRound (850 / optsLetter.aspectRatio),
              sourceX := (frDemo.left - stDemo.offsetX) / stDemo.scale,
              sourceY := (frDemo.top - stDemo.offsetY) / stDemo.scale,
              sourceWidth := frDemo.width / stDemo.scale,
              sourceHeight := frDemo.height / stDemo.scale }, stDemo)
      ∧ jsRound 850 = 850
      ∧ jsRound (850 / optsLetter.aspectRatio) = 1100) := by
  have h := getCroppedImage_spec optsLetter stDemo imgDemo frDemo 850 rfl rfl rfl
  refine ⟨⟨rfl, rfl, rfl⟩, h.1, h.2 850 (by norm_num), ?_⟩
  rw [show (850 : ℚ) / optsLetter.aspectRatio = ((1100 : ℤ) : ℚ) by norm_num [optsLetter]]
  exact jsRound_intCast 1100

/-- C10: `getCroppedImage` never mutates the engine state: in every branch,
success or failure, the state after the call is the state before it. -/
theorem getCroppedImage_state_invariant (opts : Options) (env : CanvasEnv)
    (st : CropperState) (outputWidth : ℚ) :
    (getCroppedImage opts env st outputWidth).2 = st := by
  obtain ⟨image, imageLoaded, scale, offsetX, offsetY, containerRect, frameRect, dragStart⟩ := st
  obtain ⟨ctxOk, drawOk, encodeOk⟩ := env
  cases image <;> cases frameRect <;> cases imageLoaded <;>
    cases ctxOk <;> cases drawOk <;> cases encodeOk <;> rfl

/-- The demo state with its scale forced to 10, above `maxZoom = 5`: such a
state is reachable because `resetView` does not clamp the fit scale. -/
def stBig : CropperState := { stDemo with scale := 10 }

/-- C5 counterexample: with the current scale outside the zoom bounds
(reachable after a fit-reset), a `factor = 1` call is not a no-op — the clamp
pulls the scale to `maxZoom` and recomputes the offset — refuting the claim's
assertion that `factor = 1` always falls under the no-op case. -/
theorem zoomAtPoint_factor_one_changes_state :
    (zoomAtPoint optsLetter stBig 1 300 300).scale ≠ stBig.scale
    ∧ (zoomAtPoint optsLetter stBig 1 300 300).offsetX ≠ stBig.offsetX
    ∧ (zoomAtPoint optsLetter stBig 1 300 300).scale = optsLetter.maxZoom := by
  have hchange : max optsLetter.minZoom
      (min optsLetter.maxZoom (stBig.scale * 1)) ≠ stBig.scale := by
    norm_num [optsLetter, stBig, stDemo, max_def, min_def]
  rw [zoomAtPoint_proceed optsLetter stBig crDemo 1 300 300 rfl rfl hchange]
  refine ⟨?_, ?_, ?_⟩ <;>
    norm_num [optsLetter, stBig, stDemo, crDemo, max_def, min_def]

/-- C5 amended: with an image loaded and a cached container rect,
`zoomAtPoint` sets the scale to `clamp(scale * factor)`; pushing past a bound
lands exactly on the bound; whenever the clamped product equals the current
scale the call is a complete no-op — in particular for `factor = 1` when the
current scale already lies within `[minZoom, maxZoom]` (not in general), and
when already at the bound being pushed against. -/
theorem zoomAtPoint_clamp_spec (opts : Options) (st : CropperState)
    (cr : ContainerRect) (factor clientX clientY : ℚ)
    (hload : st.imageLoaded = true) (hcr : st.containerRect = some cr)
    (hmm : opts.minZoom ≤ opts.maxZoom) :
    ((zoomAtPoint opts st factor clientX clientY).scale
        = max opts.minZoom (min opts.maxZoom (st.scale * factor)))
    ∧ (st.scale * factor < opts.minZoom →
        (zoomAtPoint opts st factor clientX clientY).scale = opts.minZoom)
    ∧ (opts.maxZoom < st.scale * factor →
        (zoomAtPoint opts st factor clientX clientY).scale = opts.maxZoom)
    ∧ (max opts.minZoom (min opts.maxZoom (st.scale * factor)) = st.scale →
        zoomAtPoint opts st factor clientX clientY = st)
    ∧ (factor = 1 → opts.minZoom ≤ st.scale → st.scale ≤ opts.maxZoom →
        zoomAtPoint opts st factor clientX clientY = st)
    ∧ (st.scale = opts.maxZoom → 1 ≤ factor → 0 ≤ st.scale →
        zoomAtPoint opts st factor clientX clientY = st)
    ∧ (st.scale = opts.minZoom → factor ≤ 1 → 0 ≤ st.scale →
        zoomAtPoint opts st factor clientX clientY = st) := by
  have hfirst : (zoomAtPoint opts st factor clientX clientY).scale
      = max opts.minZoom (min opts.maxZoom (st.scale * factor)) := by
    by_cases hsame : max opts.minZoom (min opts.maxZoom (st.scale * factor)) = st.scale
    · rw [zoomAtPoint_noop opts st factor clientX clientY hsame, hsame]
    · rw [zoomAtPoint_proceed opts st cr factor clientX clientY hload hcr hsame]
  refine ⟨hfirst, ?_, ?_, fun hsame => zoomAtPoint_noop _ _ _ _ _ hsame, ?_, ?_, ?_⟩
  · intro hlt
    rw [hfirst, min_eq_right (hlt.le.trans hmm), max_eq_left hlt.le]
  · intro hgt
    rw [hfirst, min_eq_left hgt.le, max_eq_right hmm]
  · intro hf hlo hhi
    apply zoomAtPoint_noop
    rw [hf, mul_one]
    exact clamp_eq_self opts st.scale hlo hhi
  · intro hs hf hpos
    apply zoomAtPoint_noop
    have hge : opts.maxZoom ≤ st.scale * factor := by
      rw [← hs]
      exact le_mul_of_one_le_right hpos hf
    rw [min_eq_left hge, max_eq_right hmm, ← hs]
  · intro hs hf hpos
    apply zoomAtPoint_noop
    have hle : st.scale * factor ≤ opts.minZoom := by
      rw [← hs]
      exact mul_le_of_le_one_right hpos hf
    rw [min_eq_right (hle.trans hmm), max_eq_left hle, ← hs]

/-- Witness for `zoomAtPoint_clamp_spec`: the demo state under the default
configuration with factor 2. -/
theorem zoomAtPoint_clamp_spec_witness :
    (stDemo.imageLoaded = true ∧ stDemo.containerRect = some crDemo
      ∧ optsLetter.minZoom ≤ optsLetter.maxZoom) ∧
    (zoomAtPoint optsLetter stDemo 2 300 300).scale
      = max optsLetter.minZoom (min optsLetter.maxZoom (stDemo.scale * 2)) :=
  ⟨⟨rfl, rfl, by norm_num [optsLetter]⟩,
    (zoomAtPoint_clamp_spec optsLetter stDemo crDemo 2 300 300 rfl rfl
      (by norm_num [optsLetter])).1⟩

/-- Helper: `zoomIn` unfolds to an anchored `zoomAtPoint` with factor
`1 + zoomStep` at the frame center's client coordinates. -/
theorem zoomIn_eq (opts : Options) (st : CropperState) (fr : Rect)
    (cr : ContainerRect)
    (hfr : st.frameRect = some fr) (hcr : st.containerRect = some cr)
    (hload : st.imageLoaded = true) :
    zoomIn opts st = zoomAtPoint opts st (1 + opts.zoomStep)
      (cr.left + fr.left + fr.width / 2) (cr.top + fr.top + fr.height / 2) := by
  cases st with
  | mk image imageLoaded scale offsetX offsetY containerRect frameRect dragStart =>
    simp only at hfr hcr hload ⊢
    subst hfr
    subst hcr
    subst hload
    simp only [zoomIn]

/-- Helper: `zoomOut` unfolds to an anchored `zoomAtPoint` with factor
`1 / (1 + zoomStep)` at the frame center's client coordinates. -/
theorem zoomOut_eq (opts : Options) (st : CropperState) (fr : Rect)
    (cr : ContainerRect)
    (hfr : st.frameRect = some fr) (hcr : st.containerRect = some cr)
    (hload : st.imageLoaded = true) :
    zoomOut opts st = zoomAtPoint opts st (1 / (1 + opts.zoomStep))
      (cr.left + fr.left + fr.width / 2) (cr.top + fr.top + fr.height / 2) := by
  cases st with
  | mk image imageLoaded scale offsetX offsetY containerRect frameRect dragStart =>
    simp only at hfr hcr hload ⊢
    subst hfr
    subst hcr
    subst hload
    simp only [zoomOut]

/-- C6 counterexample: in the demo state (frame center at client point
(500, 400)), `zoomOut` is not `zoomAtPoint` with factor `1 - zoomStep`: the
code uses the inverse factor `1 / (1 + zoomStep)`, giving scale
`18/25 · 10/11 = 36/55` instead of `18/25 · 9/10 = 81/125`. -/
theorem zoomOut_not_one_minus_step :
    zoomOut optsLetter stDemo
        ≠ zoomAtPoint optsLetter stDemo (1 - optsLetter.zoomStep) 500 400
    ∧ (zoomOut optsLetter stDemo).scale = 36 / 55
    ∧ (zoomAtPoint optsLetter stDemo (1 - optsLetter.zoomStep) 500 400).scale
        = 81 / 125 := by
  have hch1 : max optsLetter.minZoom (min optsLetter.maxZoom
      (stDemo.scale * (1 / (1 + optsLetter.zoomStep)))) ≠ stDemo.scale := by
    norm_num [optsLetter, stDemo, max_def, min_def]
  have hch2 : max optsLetter.minZoom (min optsLetter.maxZoom
      (stDemo.scale * (1 - optsLetter.zoomStep))) ≠ stDemo.scale := by
    norm_num [optsLetter, stDemo, max_def, min_def]
  have h1 : (zoomOut optsLetter stDemo).scale = 36 / 55 := by
    rw [zoomOut_eq optsLetter stDemo frDemo crDemo rfl rfl rfl,
      zoomAtPoint_proceed optsLetter stDemo crDemo _ _ _ rfl rfl hch1]
    norm_num [optsLetter, stDemo, max_def, min_def]
  have h2 : (zoomAtPoint optsLetter stDemo
      (1 - optsLetter.zoomStep) 500 400).scale = 81 / 125 := by
    rw [zoomAtPoint_proceed optsLetter stDemo crDemo _ _ _ rfl rfl hch2]
    norm_num [optsLetter, stDemo, max_def, min_def]
  refine ⟨?_, h1, h2⟩
  intro heq
  rw [heq] at h1
  rw [h1] at h2
  norm_num at h2

/-- C6 amended: `zoomIn` is `zoomAtPoint` with factor `1 + zoomStep` and
`zoomOut` is `zoomAtPoint` with factor `1 / (1 + zoomStep)` (the exact
reciprocal, not `1 - zoomStep`), both anchored at the client coordinates of
the frame rectangle's geometric center. -/
theorem zoomIn_zoomOut_factors (opts : Options) (st : CropperState)
    (fr : Rect) (cr : ContainerRect)
    (hfr : st.frameRect = some fr) (hcr : st.containerRect = some cr)
    (hload : st.imageLoaded = true) :
    zoomIn opts st = zoomAtPoint opts st (1 + opts.zoomStep)
        (cr.left + fr.left + fr.width / 2) (cr.top + fr.top + fr.height / 2)
    ∧ zoomOut opts st = zoomAtPoint opts st (1 / (1 + opts.zoomStep))
        (cr.left + fr.left + fr.width / 2) (cr.top + fr.top + fr.height / 2) :=
  ⟨zoomIn_eq opts st fr cr hfr hcr hload, zoomOut_eq opts st fr cr hfr hcr hload⟩

/-- Witness for `zoomIn_zoomOut_factors` at the demo state. -/
theorem zoomIn_zoomOut_factors_witness :
    (stDemo.frameRect = some frDemo ∧ stDemo.containerRect = some crDemo
      ∧ stDemo.imageLoaded = true) ∧
    (zoomIn optsLetter stDemo = zoomAtPoint optsLetter stDemo
        (1 + optsLetter.zoomStep)
        (crDemo.left + frDemo.left + frDemo.width / 2)
        (crDemo.top + frDemo.top + frDemo.height / 2)
      ∧ zoomOut optsLetter stDemo = zoomAtPoint optsLetter stDemo
        (1 / (1 + optsLetter.zoomStep))
        (crDemo.left + frDemo.left + frDemo.width / 2)
        (crDemo.top + frDemo.top + frDemo.height / 2)) :=
  ⟨⟨rfl, rfl, rfl⟩, zoomIn_zoomOut_factors optsLetter stDemo frDemo crDemo rfl rfl rfl⟩

/-- A non-image payload: a file whose MIME type is `text/plain`. -/
def fileTextPlain : JSFile := ⟨['t', 'e', 'x', 't', '/', 'p', 'l', 'a', 'i', 'n']⟩

/-- C7 counterexample: loading a `text/plain` payload in the demo state is
rejected, but the pre-call scale `18/25`, offsets and loaded flag are *not*
preserved — `this.clear()` runs on line 199 before the validation on
line 201 resets them. -/
theorem loadImage_clears_state_before_reject :
    (loadImage stDemo (some fileTextPlain)).1 = LoadOutcome.rejectedInvalidFile
    ∧ (loadImage stDemo (some fileTextPlain)).2.scale ≠ stDemo.scale
    ∧ (loadImage stDemo (some fileTextPlain)).2.offsetX ≠ stDemo.offsetX
    ∧ (loadImage stDemo (some fileTextPlain)).2.imageLoaded ≠ stDemo.imageLoaded := by
  have h : imageMimeHead.isPrefixOf fileTextPlain.mimeType = false := by decide
  have heq : loadImage stDemo (some fileTextPlain)
      = (LoadOutcome.rejectedInvalidFile, clear stDemo) := by
    simp only [loadImage, h, Bool.false_eq_true, if_false]
  rw [heq]
  refine ⟨rfl, ?_, ?_, ?_⟩ <;> norm_num [clear, stDemo]

/-- C7 amended: a load request with a missing file or a non-image MIME type
is rejected synchronously, but only after `clear()` has already reset the
engine state: after the rejection the state equals `clear` of the pre-call
state — scale 1, offsets 0, no image, no loaded flag, no drag session — not
the untouched pre-call state. -/
theorem loadImage_invalid_rejects_after_clear (st : CropperState)
    (file : Option JSFile)
    (hbad : ∀ f, file = some f → imageMimeHead.isPrefixOf f.mimeType = false) :
    (loadImage st file).1 = LoadOutcome.rejectedInvalidFile
    ∧ (loadImage st file).2 = clear st
    ∧ (loadImage st file).2.scale = 1
    ∧ (loadImage st file).2.offsetX = 0
    ∧ (loadImage st file).2.offsetY = 0
    ∧ (loadImage st file).2.imageLoaded = false
    ∧ (loadImage st file).2.dragStart = none
    ∧ (loadImage st file).2.image = none := by
  cases file with
  | none => exact ⟨rfl, rfl, rfl, rfl, rfl, rfl, rfl, rfl⟩
  | some f =>
    have h := hbad f rfl
    have heq : loadImage st (some f)
        = (LoadOutcome.rejectedInvalidFile, clear st) := by
      simp only [loadImage, h, Bool.false_eq_true, if_false]
    rw [heq]
    exact ⟨rfl, rfl, rfl, rfl, rfl, rfl, rfl, rfl⟩

/-- Witness for `loadImage_invalid_rejects_after_clear`: the `text/plain`
payload in the demo state. -/
theorem loadImage_invalid_rejects_after_clear_witness :
    imageMimeHead.isPrefixOf fileTextPlain.mimeType = false ∧
    ((loadImage stDemo (some fileTextPlain)).1 = LoadOutcome.rejectedInvalidFile
      ∧ (loadImage stDemo (some fileTextPlain)).2 = clear stDemo
      ∧ (loadImage stDemo (some fileTextPlain)).2.scale = 1
      ∧ (loadImage stDemo (some fileTextPlain)).2.offsetX = 0
      ∧ (loadImage stDemo (some fileTextPlain)).2.offsetY = 0
      ∧ (loadImage stDemo (some fileTextPlain)).2.imageLoaded = false
      ∧ (loadImage stDemo (some fileTextPlain)).2.dragStart = none
      ∧ (loadImage stDemo (some fileTextPlain)).2.image = none) :=
  ⟨by decide, loadImage_invalid_rejects_after_clear stDemo (some fileTextPlain)
    (by intro f hf; cases hf; decide)⟩

/-- The demo state with an active drag session anchored at the origin. -/
def stDrag : CropperState := { stDemo with dragStart := some ⟨0, 0, 0, 0⟩ }

/-- C8 counterexample: a second drag-start while a session is active is not
ignored — both the mouse and the single-touch handlers overwrite the stored
session with one anchored at the new pointer and the current offsets. -/
theorem handleMouseDown_overwrites_session :
    stDrag.dragStart = some ⟨0, 0, 0, 0⟩
    ∧ (handleMouseDown stDrag ⟨5, 7, 0⟩).dragStart ≠ stDrag.dragStart
    ∧ (handleMouseDown stDrag ⟨5, 7, 0⟩).dragStart
        = some ⟨5, 7, stDrag.offsetX, stDrag.offsetY⟩
    ∧ (handleTouchStart stDrag [⟨5, 7⟩]).dragStart ≠ stDrag.dragStart := by
  decide

/-- C8 amended: with an image loaded, a main-button mouse-down (resp. a
single-touch start) always stores a fresh `DragSession` built from the event
position and the current offsets — replacing, not preserving, any active
session; at most one session exists at a time only because the new one
overwrites the old. -/
theorem dragStart_replaced_on_new_gesture (st : CropperState)
    (e : MouseEvent) (t : Touch)
    (hload : st.imageLoaded = true) (hbtn : e.button = 0) :
    (handleMouseDown st e).dragStart
        = some ⟨e.clientX, e.clientY, st.offsetX, st.offsetY⟩
    ∧ (handleTouchStart st [t]).dragStart
        = some ⟨t.clientX, t.clientY, st.offsetX, st.offsetY⟩ := by
  constructor
  · have hcond : ¬(¬st.imageLoaded = true ∨ e.button ≠ 0) := by
      push_neg
      exact ⟨hload, hbtn⟩
    unfold handleMouseDown
    rw [if_neg hcond]
  · have hcond : ¬¬st.imageLoaded = true := by
      simp [hload]
    unfold handleTouchStart
    rw [if_neg hcond]

/-- Witness for `dragStart_replaced_on_new_gesture`: the demo state with an
active session, a mouse-down at (5, 7) and a touch at (5, 7). -/
theorem dragStart_replaced_on_new_gesture_witness :
    (stDrag.imageLoaded = true ∧ (MouseEvent.mk 5 7 0).button = 0) ∧
    ((handleMouseDown stDrag ⟨5, 7, 0⟩).dragStart
        = some ⟨5, 7, stDrag.offsetX, stDrag.offsetY⟩
      ∧ (handleTouchStart stDrag [⟨5, 7⟩]).dragStart
        = some ⟨5, 7, stDrag.offsetX, stDrag.offsetY⟩) :=
  ⟨⟨rfl, rfl⟩, dragStart_replaced_on_new_gesture stDrag ⟨5, 7, 0⟩ ⟨5, 7⟩ rfl rfl⟩

/-- Helper: `zoomAtPoint` never touches the image, loaded flag, cached
rects or drag session. -/
theorem zoomAtPoint_preserves (opts : Options) (st : CropperState)
    (factor clientX clientY : ℚ) :
    (zoomAtPoint opts st factor clientX clientY).image = st.image
    ∧ (zoomAtPoint opts st factor clientX clientY).imageLoaded = st.imageLoaded
    ∧ (zoomAtPoint opts st factor clientX clientY).containerRect = st.containerRect
    ∧ (zoomAtPoint opts st factor clientX clientY).frameRect = st.frameRect
    ∧ (zoomAtPoint opts st factor clientX clientY).dragStart = st.dragStart := by
  obtain ⟨image, imageLoaded, scale, offsetX, offsetY, containerRect, frameRect, dragStart⟩ := st
  cases containerRect <;> cases imageLoaded <;> simp only [zoomAtPoint]
  · exact ⟨trivial, trivial, trivial, trivial, trivial⟩
  · exact ⟨trivial, trivial, trivial, trivial, trivial⟩
  · exact ⟨trivial, trivial, trivial, trivial, trivial⟩
  · split <;> exact ⟨rfl, rfl, rfl, rfl, rfl⟩

/-- Helper: two `zoomAtPoint` calls at the same screen point whose factors
are exact reciprocals compose to the identity when neither call clamps. -/
theorem zoomAtPoint_comp_inv (opts : Options) (st : CropperState)
    (cr : ContainerRect) (f g cX cY : ℚ)
    (hload : st.imageLoaded = true) (hcr : st.containerRect = some cr)
    (hs0 : st.scale ≠ 0) (hfg : f * g = 1)
    (h1 : max opts.minZoom (min opts.maxZoom (st.scale * f)) = st.scale * f)
    (hne1 : st.scale * f ≠ st.scale)
    (h2 : max opts.minZoom (min opts.maxZoom st.scale) = st.scale) :
    zoomAtPoint opts (zoomAtPoint opts st f cX cY) g cX cY = st := by
  have hf0 : f ≠ 0 := by
    intro h
    rw [h, zero_mul] at hfg
    exact zero_ne_one hfg
  obtain ⟨image, imageLoaded, scale, offsetX, offsetY, containerRect, frameRect, dragStart⟩ := st
  simp only at hload hcr hs0 h1 hne1 h2 ⊢
  subst hload
  subst hcr
  have hch1 : max opts.minZoom (min opts.maxZoom (scale * f)) ≠ scale := by
    rw [h1]
    exact hne1
  simp only [zoomAtPoint]
  rw [if_neg hch1, h1]
  have hprod : scale * f * g = scale := by
    rw [mul_assoc, hfg, mul_one]
  simp only [zoomAtPoint]
  rw [hprod, h2, if_neg (Ne.symm hne1)]
  simp only [CropperState.mk.injEq, true_and, and_true]
  constructor <;> (field_simp; ring)

/-- C9: with an image loaded, cached rects, a positive zoom step and a
positive scale, and zoom bounds wide enough that neither call clamps,
`zoomOut` after `zoomIn` (and symmetrically `zoomIn` after `zoomOut`)
restores the exact state: the factors `1 + zoomStep` and
`1 / (1 + zoomStep)` are exact reciprocals and both calls anchor at the same
frame-center point, so the composed anchored-zoom transform is the
identity. -/
theorem zoomIn_zoomOut_roundtrip (opts : Options) (st : CropperState)
    (fr : Rect) (cr : ContainerRect)
    (hfr : st.frameRect = some fr) (hcr : st.containerRect = some cr)
    (hload : st.imageLoaded = true)
    (hstep : 0 < opts.zoomStep) (hsc : 0 < st.scale)
    (hlo : opts.minZoom ≤ st.scale / (1 + opts.zoomStep))
    (hhi : st.scale * (1 + opts.zoomStep) ≤ opts.maxZoom) :
    zoomOut opts (zoomIn opts st) = st ∧ zoomIn opts (zoomOut opts st) = st := by
  have hfpos : (0 : ℚ) < 1 + opts.zoomStep := by linarith
  have hf1 : (1 : ℚ) < 1 + opts.zoomStep := by linarith
  have hdiv_le : st.scale / (1 + opts.zoomStep) ≤ st.scale := by
    rw [div_le_iff₀ hfpos]
    nlinarith
  have hscale_le : st.scale ≤ st.scale * (1 + opts.zoomStep) := by nlinarith
  have hmin_sc : opts.minZoom ≤ st.scale := hlo.trans hdiv_le
  have hmax_sc : st.scale ≤ opts.maxZoom := hscale_le.trans hhi
  have h2 : max opts.minZoom (min opts.maxZoom st.scale) = st.scale :=
    clamp_eq_self opts st.scale hmin_sc hmax_sc
  have h1in : max opts.minZoom (min opts.maxZoom (st.scale * (1 + opts.zoomStep)))
      = st.scale * (1 + opts.zoomStep) :=
    clamp_eq_self opts _ (hmin_sc.trans hscale_le) hhi
  have hne1in : st.scale * (1 + opts.zoomStep) ≠ st.scale := by
    have h : st.scale < st.scale * (1 + opts.zoomStep) := by nlinarith
    exact h.ne'
  have hmulinv : st.scale * (1 / (1 + opts.zoomStep))
      = st.scale / (1 + opts.zoomStep) := by
    rw [mul_one_div]
  have h1out : max opts.minZoom (min opts.maxZoom
      (st.scale * (1 / (1 + opts.zoomStep))))
      = st.scale * (1 / (1 + opts.zoomStep)) := by
    rw [hmulinv]
    exact clamp_eq_self opts _ hlo (hdiv_le.trans hmax_sc)
  have hne1out : st.scale * (1 / (1 + opts.zoomStep)) ≠ st.scale := by
    rw [hmulinv]
    exact (div_lt_self hsc hf1).ne
  have hfgin : (1 + opts.zoomStep) * (1 / (1 + opts.zoomStep)) = 1 := by
    field_simp
  have hfgout : (1 / (1 + opts.zoomStep)) * (1 + opts.zoomStep) = 1 := by
    field_simp
  constructor
  · rw [zoomIn_eq opts st fr cr hfr hcr hload]
    have hpres := zoomAtPoint_preserves opts st (1 + opts.zoomStep)
      (cr.left + fr.left + fr.width / 2) (cr.top + fr.top + fr.height / 2)
    rw [zoomOut_eq opts _ fr cr (hpres.2.2.2.1.trans hfr)
      (hpres.2.2.1.trans hcr) (hpres.2.1.trans hload)]
    exact zoomAtPoint_comp_inv opts st cr (1 + opts.zoomStep)
      (1 / (1 + opts.zoomStep)) _ _ hload hcr hsc.ne' hfgin h1in hne1in h2
  · rw [zoomOut_eq opts st fr cr hfr hcr hload]
    have hpres := zoomAtPoint_preserves opts st (1 / (1 + opts.zoomStep))
      (cr.left + fr.left + fr.width / 2) (cr.top + fr.top + fr.height / 2)
    rw [zoomIn_eq opts _ fr cr (hpres.2.2.2.1.trans hfr)
      (hpres.2.2.1.trans hcr) (hpres.2.1.trans hload)]
    exact zoomAtPoint_comp_inv opts st cr (1 / (1 + opts.zoomStep))
      (1 + opts.zoomStep) _ _ hload hcr hsc.ne' hfgout h1out hne1out h2

/-- Witness for `zoomIn_zoomOut_roundtrip`: the demo state under the default
configuration, where neither `0.72 · 1.1` nor `0.72 / 1.1` hits the
bounds. -/
theorem zoomIn_zoomOut_roundtrip_witness :
    (stDemo.frameRect = some frDemo ∧ stDemo.containerRect = some crDemo
      ∧ stDemo.imageLoaded = true ∧ 0 < optsLetter.zoomStep ∧ 0 < stDemo.scale
      ∧ optsLetter.minZoom ≤ stDemo.scale / (1 + optsLetter.zoomStep)
      ∧ stDemo.scale * (1 + optsLetter.zoomStep) ≤ optsLetter.maxZoom) ∧
    (zoomOut optsLetter (zoomIn optsLetter stDemo) = stDemo
      ∧ zoomIn optsLetter (zoomOut optsLetter stDemo) = stDemo) :=
  ⟨⟨rfl, rfl, rfl, by norm_num [optsLetter], by norm_num [stDemo],
    by norm_num [optsLetter, stDemo], by norm_num [optsLetter, stDemo]⟩,
    zoomIn_zoomOut_roundtrip optsLetter stDemo frDemo crDemo rfl rfl rfl
      (by norm_num [optsLetter]) (by norm_num [stDemo])
      (by norm_num [optsLetter, stDemo]) (by norm_num [optsLetter, stDemo])⟩

end QuickCrop
